import Mathlib

/-!
Shallow embedding of `src/fast_intersect_count.h` (FastIntersectCount).

Conventions of the embedding:
* `uint64_t` words are natural numbers; an array of words is a function
  `Nat → Nat` (the C pointer), read at nonnegative offsets.  Where the
  64-bit type matters (packing words into SIMD lanes) the value is
  reduced `% 2^64`, which is the range guarantee the C type gives.
* SIMD registers (`__m128i`, `__m256i`, `__m512i`) are natural numbers
  below `2^128` / `2^256` / `2^512`, little-endian concatenations of
  their 64-bit sub-lanes, exactly as they are laid out in memory.
* C `for` loops with unit step and a pure accumulation are embedded as
  `Finset` sums over the index range; loops with non-unit step (or an
  early-changing accumulator) are embedded as structurally recursive
  functions on a fuel argument.  The fuel passed by each caller strictly
  exceeds the number of iterations the C loop performs (the index grows
  by at least one per iteration and is bounded by the fuel), so the
  fuel-exhaustion branch is never reached; it is set to the loop's own
  exit continuation.
* Offset arithmetic (`left = i*n_ints`, pointer increments) is carried
  out in `Nat`; inputs large enough to overflow the 32-bit offsets of
  the C source are outside the model (the spec makes dimension overflow
  the caller's responsibility).
* The process-wide cached CPUID bitmask becomes an explicit `cpuid`
  argument to the dispatch entry points.
-/

/-- Model of `FIC_POPCOUNT` (`_mm_popcnt_u64` / `__builtin_popcountll`): number of
set bits of a 64-bit word, computed over bit positions 0..63. -/
def popcntAux : Nat → Nat → Nat
  | 0, _ => 0
  | fuel+1, x => x % 2 + popcntAux fuel (x / 2)

def FIC_POPCOUNT (x : Nat) : Nat := popcntAux 64 x

/-! ## SSE4.1 lane (128 bits) -/

/-- Model of `FIC_POPCOUNT_SSE`: popcount of the low 64-bit lane plus popcount of
the high 64-bit lane of a `__m128i`. -/
def FIC_POPCOUNT_SSE (n : Nat) : Nat :=
  FIC_POPCOUNT (n % 2^64) + FIC_POPCOUNT ((n >>> 64) % 2^64)

/-- Model of `CSA128(h, l, a, b, c)`: returns `(h, l)` with
`u = a ^ b`, `h = (a & b) | (u & c)`, `l = u ^ c`. -/
def CSA128 (a b c : Nat) : Nat × Nat :=
  let u := a ^^^ b
  ((a &&& b) ||| (u &&& c), u ^^^ c)

/-- Reading `__m128i` number `i` from a `uint64_t` array: the cast
`(__m128i*)b` makes block `i` the little-endian pair of words `2i, 2i+1`. -/
def m128 (b : Nat → Nat) : Nat → Nat :=
  fun i => b (2*i) % 2^64 + (b (2*i+1) % 2^64) * 2^64

/-- The 16-blocks-per-iteration Harley-Seal loop of
`popcnt_sse4_csa_intersect`, a literal transcription of the CSA chain.
State: `(ones, twos, fours, eights, sixteens, cnt64)`; the loop runs
while `i < limit` stepping `i` by 16. -/
def sseCsaLoop : Nat → (Nat → Nat) → (Nat → Nat) → Nat → Nat →
    Nat → Nat → Nat → Nat → Nat → Nat → Nat × Nat × Nat × Nat × Nat × Nat
  | 0, _, _, _, _, ones, twos, fours, eights, sixteens, cnt64 =>
      (ones, twos, fours, eights, sixteens, cnt64)
  | fuel+1, d1, d2, limit, i, ones, twos, fours, eights, sixteens, cnt64 =>
      if i < limit then
        let (twosA, ones) := CSA128 ones (d1 (i+0) &&& d2 (i+0)) (d1 (i+1) &&& d2 (i+1))
        let (twosB, ones) := CSA128 ones (d1 (i+2) &&& d2 (i+2)) (d1 (i+3) &&& d2 (i+3))
        let (foursA, twos) := CSA128 twos twosA twosB
        let (twosA, ones) := CSA128 ones (d1 (i+4) &&& d2 (i+4)) (d1 (i+5) &&& d2 (i+5))
        let (twosB, ones) := CSA128 ones (d1 (i+6) &&& d2 (i+6)) (d1 (i+7) &&& d2 (i+7))
        let (foursB, twos) := CSA128 twos twosA twosB
        let (eightsA, fours) := CSA128 fours foursA foursB
        let (twosA, ones) := CSA128 ones (d1 (i+8) &&& d2 (i+8)) (d1 (i+9) &&& d2 (i+9))
        let (twosB, ones) := CSA128 ones (d1 (i+10) &&& d2 (i+10)) (d1 (i+11) &&& d2 (i+11))
        let (foursA, twos) := CSA128 twos twosA twosB
        let (twosA, ones) := CSA128 ones (d1 (i+12) &&& d2 (i+12)) (d1 (i+13) &&& d2 (i+13))
        let (twosB, ones) := CSA128 ones (d1 (i+14) &&& d2 (i+14)) (d1 (i+15) &&& d2 (i+15))
        let (foursB, twos) := CSA128 twos twosA twosB
        let (eightsB, fours) := CSA128 fours foursA foursB
        let (sixteens, eights) := CSA128 eights eightsA eightsB
        sseCsaLoop fuel d1 d2 limit (i+16) ones twos fours eights sixteens
          (cnt64 + FIC_POPCOUNT_SSE sixteens)
      else
        (ones, twos, fours, eights, sixteens, cnt64)

/-- The residual tail of `popcnt_sse4_csa_intersect`.  NOTE: the C source
ASSIGNS (`cnt64 = ...`) rather than accumulates in this loop; the
transcription preserves that. -/
def sseTail : Nat → (Nat → Nat) → (Nat → Nat) → Nat → Nat → Nat → Nat
  | 0, _, _, _, _, cnt64 => cnt64
  | fuel+1, d1, d2, size, i, cnt64 =>
      if i < size then
        sseTail fuel d1 d2 size (i+1) (FIC_POPCOUNT_SSE (d1 i &&& d2 i))
      else cnt64

/-- Model of `popcnt_sse4_csa_intersect(data1, data2, size)`: Harley-Seal
AND-popcount over `size` 128-bit blocks. -/
def popcnt_sse4_csa_intersect (data1 data2 : Nat → Nat) (size : Nat) : Nat :=
  let limit := size - size % 16
  match sseCsaLoop (size+1) data1 data2 limit 0 0 0 0 0 0 0 with
  | (ones, twos, fours, eights, _sixteens, cnt64) =>
    let cnt64 := cnt64 <<< 4
    let cnt64 := cnt64 + (FIC_POPCOUNT_SSE eights <<< 3)
    let cnt64 := cnt64 + (FIC_POPCOUNT_SSE fours <<< 2)
    let cnt64 := cnt64 + (FIC_POPCOUNT_SSE twos <<< 1)
    let cnt64 := cnt64 + FIC_POPCOUNT_SSE ones
    sseTail (size+1) data1 data2 size limit cnt64

/-- Model of `intersect_bitmaps_sse4(b1, b2, n_ints)`. -/
def intersect_bitmaps_sse4 (b1 b2 : Nat → Nat) (n_ints : Nat) : Nat :=
  let n_cycles := n_ints / 2
  popcnt_sse4_csa_intersect (m128 b1) (m128 b2) n_cycles +
    ∑ i in Finset.Ico (n_cycles*2) n_ints, FIC_POPCOUNT (b1 i &&& b2 i)

/-! ## Scalar kernels -/

/-- The 4-way unrolled loop of `intersect_bitmaps_scalar`; runs while
`i + 4 < n_ints`, then the plain tail loop finishes `i .. n_ints-1`. -/
def scalarLoop : Nat → (Nat → Nat) → (Nat → Nat) → Nat → Nat → Nat → Nat
  | 0, b1, b2, n_ints, i, count =>
      count + ∑ k in Finset.Ico i n_ints, FIC_POPCOUNT (b1 k &&& b2 k)
  | fuel+1, b1, b2, n_ints, i, count =>
      if i + 4 < n_ints then
        scalarLoop fuel b1 b2 n_ints (i+4)
          (count + FIC_POPCOUNT (b1 (i+0) &&& b2 (i+0))
                 + FIC_POPCOUNT (b1 (i+1) &&& b2 (i+1))
                 + FIC_POPCOUNT (b1 (i+2) &&& b2 (i+2))
                 + FIC_POPCOUNT (b1 (i+3) &&& b2 (i+3)))
      else
        count + ∑ k in Finset.Ico i n_ints, FIC_POPCOUNT (b1 k &&& b2 k)

/-- Model of `intersect_bitmaps_scalar(b1, b2, n_ints)`. -/
def intersect_bitmaps_scalar (b1 b2 : Nat → Nat) (n_ints : Nat) : Nat :=
  scalarLoop (n_ints + 1) b1 b2 n_ints 0 0

/-- The `MOD(x)` macro of `intersect_bitmaps_scalar_list`:
`(((x) * 64) >> 6)` in `uint32_t` arithmetic. -/
def macroMOD (x : Nat) : Nat := ((x * 64) % 2^32) >>> 6

/-- Model of `intersect_bitmaps_scalar_list(b1, b2, l1, l2, n1, n2)`: probes the
positions of the shorter list in the other dense bitmap and counts hits:
`count += ((b2[l1[i] >> 6] & (1L << MOD(l1[i]))) != 0)`.
The variable 64-bit shift `1L << MOD(p)` is embedded as
`1 <<< (macroMOD p % 64)`: the x86 `shl` instruction this code targets keeps
only the low six bits of the shift count.  The `__builtin_prefetch`
hints have no effect on the result and are omitted. -/
def intersect_bitmaps_scalar_list (b1 b2 l1 l2 : Nat → Nat) (n1 n2 : Nat) : Nat :=
  if n1 < n2 then
    ∑ i in Finset.range n1,
      (if b2 (l1 i >>> 6) &&& (1 <<< (macroMOD (l1 i) % 64)) ≠ 0 then 1 else 0)
  else
    ∑ i in Finset.range n2,
      (if b1 (l2 i >>> 6) &&& (1 <<< (macroMOD (l2 i) % 64)) ≠ 0 then 1 else 0)

/-- The ascending list of set-bit indices of a bitmap of `W` 64-bit
words: position `p` (for `p < 64*W`) is set when bit `p % 64` of word
`p / 64` is set.  This is the side-table contract of the spec. -/
def setBitIndices (b : Nat → Nat) (W : Nat) : List Nat :=
  (List.range (64 * W)).filter (fun p => (b (p >>> 6)).testBit (p % 64))

/-! ## Lane-wise intrinsic helpers (shared by the 256- and 512-bit code)

A wide register is split into `lanes` lanes of `laneBits` bits; a
per-lane unary or binary operation is applied, each result reduced into
its lane. -/

def mapLanes (laneBits : Nat) : Nat → (Nat → Nat) → Nat → Nat
  | 0, _, _ => 0
  | k+1, f, v => f (v % 2^laneBits) % 2^laneBits + mapLanes laneBits k f (v / 2^laneBits) * 2^laneBits

def zipLanes (laneBits : Nat) : Nat → (Nat → Nat → Nat) → Nat → Nat → Nat
  | 0, _, _, _ => 0
  | k+1, f, a, b => f (a % 2^laneBits) (b % 2^laneBits) % 2^laneBits
      + zipLanes laneBits k f (a / 2^laneBits) (b / 2^laneBits) * 2^laneBits

/-- Model of `_mm256_set1_epi8` / `_mm512_set1_epi8`: broadcast a byte to `k` bytes. -/
def set1_epi8 (x k : Nat) : Nat := mapLanes 8 k (fun _ => x) 0

/-- Model of `srli_epi16`: logical right shift of each 16-bit lane (`k` lanes). -/
def srli_epi16 (k : Nat) (v s : Nat) : Nat := mapLanes 16 k (fun x => x >>> s) v

/-- Model of `sub_epi8`: per-byte subtraction modulo 256 (`k` bytes). -/
def sub_epi8 (k : Nat) (a b : Nat) : Nat := zipLanes 8 k (fun x y => x + 256 - y) a b

/-- Model of `add_epi8`: per-byte addition modulo 256 (`k` bytes). -/
def add_epi8 (k : Nat) (a b : Nat) : Nat := zipLanes 8 k (fun x y => x + y) a b

/-- Model of `add_epi64`: per-64-bit-lane addition modulo `2^64` (`k` lanes). -/
def add_epi64 (k : Nat) (a b : Nat) : Nat := zipLanes 64 k (fun x y => x + y) a b

/-- Model of `slli_epi64`: logical left shift of each 64-bit lane (`k` lanes). -/
def slli_epi64 (k : Nat) (v s : Nat) : Nat := mapLanes 64 k (fun x => x <<< s) v

/-- Absolute difference on byte values. -/
def byteDist (a b : Nat) : Nat := if a ≤ b then b - a else a - b

/-- Sum of absolute byte differences of one 64-bit lane. -/
def sad64 (a b : Nat) : Nat :=
  ∑ k in Finset.range 8, byteDist ((a >>> (8*k)) % 256) ((b >>> (8*k)) % 256)

/-- Model of `sad_epu8`: per-64-bit-lane sum of absolute differences of the eight
byte pairs (`k` 64-bit lanes). -/
def sad_epu8 (k : Nat) (a b : Nat) : Nat := zipLanes 64 k sad64 a b

/-- One 128-bit half of `shuffle_epi8`: result byte `j` is zero when bit
7 of control byte `j` is set, else table byte `control & 15`. -/
def shuffleBytes (t : Nat) : Nat → Nat → Nat
  | 0, _ => 0
  | k+1, idx =>
      (if 128 ≤ idx % 256 then 0 else (t >>> (8 * (idx % 256 % 16))) % 256)
        + shuffleBytes t k (idx / 256) * 256

/-- Model of `_mm256_shuffle_epi8`: the two 128-bit halves are shuffled
independently. -/
def shuffle_epi8_256 (t v : Nat) : Nat :=
  shuffleBytes (t % 2^128) 16 (v % 2^128)
    + shuffleBytes ((t >>> 128) % 2^128) 16 ((v >>> 128) % 2^128) * 2^128

/-- Little-endian byte list to natural number, used for the
`_mm256_setr_epi8` lookup-table constants. -/
def bytesToNat : List Nat → Nat
  | [] => 0
  | b :: r => b % 256 + bytesToNat r * 256

/-! ## AVX2 (256-bit) kernel -/

/-- Model of `CSA256`. -/
def CSA256 (a b c : Nat) : Nat × Nat :=
  let u := a ^^^ b
  ((a &&& b) ||| (u &&& c), u ^^^ c)

/-- Model of `popcnt256(v)`: nibble lookup + SAD; each 64-bit lane of the result
holds the popcount of the corresponding lane of `v`. -/
def popcnt256 (v : Nat) : Nat :=
  let lookup1 := bytesToNat [4, 5, 5, 6, 5, 6, 6, 7, 5, 6, 6, 7, 6, 7, 7, 8,
                             4, 5, 5, 6, 5, 6, 6, 7, 5, 6, 6, 7, 6, 7, 7, 8]
  let lookup2 := bytesToNat [4, 3, 3, 2, 3, 2, 2, 1, 3, 2, 2, 1, 2, 1, 1, 0,
                             4, 3, 3, 2, 3, 2, 2, 1, 3, 2, 2, 1, 2, 1, 1, 0]
  let low_mask := set1_epi8 0x0f 32
  let lo := v &&& low_mask
  let hi := srli_epi16 16 v 4 &&& low_mask
  let popcnt1 := shuffle_epi8_256 lookup1 lo
  let popcnt2 := shuffle_epi8_256 lookup2 hi
  sad_epu8 4 popcnt1 popcnt2

/-- Reading `__m256i` number `i` from a `uint64_t` array. -/
def m256 (b : Nat → Nat) : Nat → Nat :=
  fun i => b (4*i) % 2^64 + (b (4*i+1) % 2^64) * 2^64
    + (b (4*i+2) % 2^64) * 2^128 + (b (4*i+3) % 2^64) * 2^192

/-- The Harley-Seal loop of `popcnt_avx2_csa_intersect`; here `cnt` is a
`__m256i` accumulated with `add_epi64`. -/
def avx2CsaLoop : Nat → (Nat → Nat) → (Nat → Nat) → Nat → Nat →
    Nat → Nat → Nat → Nat → Nat → Nat → Nat × Nat × Nat × Nat × Nat × Nat
  | 0, _, _, _, _, cnt, ones, twos, fours, eights, sixteens =>
      (cnt, ones, twos, fours, eights, sixteens)
  | fuel+1, d1, d2, limit, i, cnt, ones, twos, fours, eights, sixteens =>
      if i < limit then
        let (twosA, ones) := CSA256 ones (d1 (i+0) &&& d2 (i+0)) (d1 (i+1) &&& d2 (i+1))
        let (twosB, ones) := CSA256 ones (d1 (i+2) &&& d2 (i+2)) (d1 (i+3) &&& d2 (i+3))
        let (foursA, twos) := CSA256 twos twosA twosB
        let (twosA, ones) := CSA256 ones (d1 (i+4) &&& d2 (i+4)) (d1 (i+5) &&& d2 (i+5))
        let (twosB, ones) := CSA256 ones (d1 (i+6) &&& d2 (i+6)) (d1 (i+7) &&& d2 (i+7))
        let (foursB, twos) := CSA256 twos twosA twosB
        let (eightsA, fours) := CSA256 fours foursA foursB
        let (twosA, ones) := CSA256 ones (d1 (i+8) &&& d2 (i+8)) (d1 (i+9) &&& d2 (i+9))
        let (twosB, ones) := CSA256 ones (d1 (i+10) &&& d2 (i+10)) (d1 (i+11) &&& d2 (i+11))
        let (foursA, twos) := CSA256 twos twosA twosB
        let (twosA, ones) := CSA256 ones (d1 (i+12) &&& d2 (i+12)) (d1 (i+13) &&& d2 (i+13))
        let (twosB, ones) := CSA256 ones (d1 (i+14) &&& d2 (i+14)) (d1 (i+15) &&& d2 (i+15))
        let (foursB, twos) := CSA256 twos twosA twosB
        let (eightsB, fours) := CSA256 fours foursA foursB
        let (sixteens, eights) := CSA256 eights eightsA eightsB
        avx2CsaLoop fuel d1 d2 limit (i+16)
          (add_epi64 4 cnt (popcnt256 sixteens)) ones twos fours eights sixteens
      else
        (cnt, ones, twos, fours, eights, sixteens)

/-- The residual tail of `popcnt_avx2_csa_intersect` (this one
accumulates with `add_epi64`). -/
def avx2Tail : Nat → (Nat → Nat) → (Nat → Nat) → Nat → Nat → Nat → Nat
  | 0, _, _, _, _, cnt => cnt
  | fuel+1, d1, d2, size, i, cnt =>
      if i < size then
        avx2Tail fuel d1 d2 size (i+1) (add_epi64 4 cnt (popcnt256 (d1 i &&& d2 i)))
      else cnt

/-- Model of `popcnt_avx2_csa_intersect(data1, data2, size)`. -/
def popcnt_avx2_csa_intersect (data1 data2 : Nat → Nat) (size : Nat) : Nat :=
  let limit := size - size % 16
  match avx2CsaLoop (size+1) data1 data2 limit 0 0 0 0 0 0 0 with
  | (cnt, ones, twos, fours, eights, _sixteens) =>
    let cnt := slli_epi64 4 cnt 4
    let cnt := add_epi64 4 cnt (slli_epi64 4 (popcnt256 eights) 3)
    let cnt := add_epi64 4 cnt (slli_epi64 4 (popcnt256 fours) 2)
    let cnt := add_epi64 4 cnt (slli_epi64 4 (popcnt256 twos) 1)
    let cnt := add_epi64 4 cnt (popcnt256 ones)
    let cnt := avx2Tail (size+1) data1 data2 size limit cnt
    cnt % 2^64 + (cnt >>> 64) % 2^64 + (cnt >>> 128) % 2^64 + (cnt >>> 192) % 2^64

/-- Model of `intersect_bitmaps_avx2(b1, b2, n_ints)`. -/
def intersect_bitmaps_avx2 (b1 b2 : Nat → Nat) (n_ints : Nat) : Nat :=
  let n_cycles := n_ints / 4
  popcnt_avx2_csa_intersect (m256 b1) (m256 b2) n_cycles +
    ∑ i in Finset.Ico (n_cycles*4) n_ints, FIC_POPCOUNT (b1 i &&& b2 i)

/-! ## AVX-512BW (512-bit) kernel -/

/-- Model of `_mm512_ternarylogic_epi32(a, b, c, imm)`: bit `k` of the result is
bit `4*a_k + 2*b_k + c_k` of the 8-bit truth table `imm`; the first
recursion argument is the bit width (512 for a `__m512i`). -/
def mm512_ternarylogic : Nat → Nat → Nat → Nat → Nat → Nat
  | 0, _, _, _, _ => 0
  | w+1, a, b, c, imm =>
      (imm >>> (4 * (a % 2) + 2 * (b % 2) + c % 2)) % 2
        + 2 * mm512_ternarylogic w (a / 2) (b / 2) (c / 2) imm

/-- Model of `CSA512`: `*l = ternarylogic(c, b, a, 0x96); *h = ternarylogic(c, b, a, 0xe8)`;
returned as `(h, l)`. -/
def CSA512 (a b c : Nat) : Nat × Nat :=
  (mm512_ternarylogic 512 c b a 0xe8, mm512_ternarylogic 512 c b a 0x96)

/-- Model of `popcnt512(v)`: Wegner-style bit-parallel byte popcount followed by
SAD against zero; each 64-bit lane holds the popcount of its lane. -/
def popcnt512 (v : Nat) : Nat :=
  let m1 := set1_epi8 0x55 64
  let m2 := set1_epi8 0x33 64
  let m4 := set1_epi8 0x0F 64
  let t1 := sub_epi8 64 v (srli_epi16 32 v 1 &&& m1)
  let t2 := add_epi8 64 (t1 &&& m2) (srli_epi16 32 t1 2 &&& m2)
  let t3 := add_epi8 64 t2 (srli_epi16 32 t2 4) &&& m4
  sad_epu8 8 t3 0

/-- Reading `__m512i` number `i` from a `uint64_t` array. -/
def m512 (b : Nat → Nat) : Nat → Nat :=
  fun i => b (8*i) % 2^64 + (b (8*i+1) % 2^64) * 2^64
    + (b (8*i+2) % 2^64) * 2^128 + (b (8*i+3) % 2^64) * 2^192
    + (b (8*i+4) % 2^64) * 2^256 + (b (8*i+5) % 2^64) * 2^320
    + (b (8*i+6) % 2^64) * 2^384 + (b (8*i+7) % 2^64) * 2^448

/-- The Harley-Seal loop of `popcnt_avx512_csa_intersect`. -/
def avx512CsaLoop : Nat → (Nat → Nat) → (Nat → Nat) → Nat → Nat →
    Nat → Nat → Nat → Nat → Nat → Nat → Nat × Nat × Nat × Nat × Nat × Nat
  | 0, _, _, _, _, cnt, ones, twos, fours, eights, sixteens =>
      (cnt, ones, twos, fours, eights, sixteens)
  | fuel+1, d1, d2, limit, i, cnt, ones, twos, fours, eights, sixteens =>
      if i < limit then
        let (twosA, ones) := CSA512 ones (d1 (i+0) &&& d2 (i+0)) (d1 (i+1) &&& d2 (i+1))
        let (twosB, ones) := CSA512 ones (d1 (i+2) &&& d2 (i+2)) (d1 (i+3) &&& d2 (i+3))
        let (foursA, twos) := CSA512 twos twosA twosB
        let (twosA, ones) := CSA512 ones (d1 (i+4) &&& d2 (i+4)) (d1 (i+5) &&& d2 (i+5))
        let (twosB, ones) := CSA512 ones (d1 (i+6) &&& d2 (i+6)) (d1 (i+7) &&& d2 (i+7))
        let (foursB, twos) := CSA512 twos twosA twosB
        let (eightsA, fours) := CSA512 fours foursA foursB
        let (twosA, ones) := CSA512 ones (d1 (i+8) &&& d2 (i+8)) (d1 (i+9) &&& d2 (i+9))
        let (twosB, ones) := CSA512 ones (d1 (i+10) &&& d2 (i+10)) (d1 (i+11) &&& d2 (i+11))
        let (foursA, twos) := CSA512 twos twosA twosB
        let (twosA, ones) := CSA512 ones (d1 (i+12) &&& d2 (i+12)) (d1 (i+13) &&& d2 (i+13))
        let (twosB, ones) := CSA512 ones (d1 (i+14) &&& d2 (i+14)) (d1 (i+15) &&& d2 (i+15))
        let (foursB, twos) := CSA512 twos twosA twosB
        let (eightsB, fours) := CSA512 fours foursA foursB
        let (sixteens, eights) := CSA512 eights eightsA eightsB
        avx512CsaLoop fuel d1 d2 limit (i+16)
          (add_epi64 8 cnt (popcnt512 sixteens)) ones twos fours eights sixteens
      else
        (cnt, ones, twos, fours, eights, sixteens)

/-- The residual tail of `popcnt_avx512_csa_intersect` (accumulating). -/
def avx512Tail : Nat → (Nat → Nat) → (Nat → Nat) → Nat → Nat → Nat → Nat
  | 0, _, _, _, _, cnt => cnt
  | fuel+1, d1, d2, size, i, cnt =>
      if i < size then
        avx512Tail fuel d1 d2 size (i+1) (add_epi64 8 cnt (popcnt512 (d1 i &&& d2 i)))
      else cnt

/-- Model of `popcnt_avx512_csa_intersect(data1, data2, size)`. -/
def popcnt_avx512_csa_intersect (data1 data2 : Nat → Nat) (size : Nat) : Nat :=
  let limit := size - size % 16
  match avx512CsaLoop (size+1) data1 data2 limit 0 0 0 0 0 0 0 with
  | (cnt, ones, twos, fours, eights, _sixteens) =>
    let cnt := slli_epi64 8 cnt 4
    let cnt := add_epi64 8 cnt (slli_epi64 8 (popcnt512 eights) 3)
    let cnt := add_epi64 8 cnt (slli_epi64 8 (popcnt512 fours) 2)
    let cnt := add_epi64 8 cnt (slli_epi64 8 (popcnt512 twos) 1)
    let cnt := add_epi64 8 cnt (popcnt512 ones)
    let cnt := avx512Tail (size+1) data1 data2 size limit cnt
    cnt % 2^64 + (cnt >>> 64) % 2^64 + (cnt >>> 128) % 2^64 + (cnt >>> 192) % 2^64
      + (cnt >>> 256) % 2^64 + (cnt >>> 320) % 2^64 + (cnt >>> 384) % 2^64
      + (cnt >>> 448) % 2^64

/-- Model of `intersect_bitmaps_avx512_csa(b1, b2, n_ints)`. -/
def intersect_bitmaps_avx512_csa (b1 b2 : Nat → Nat) (n_ints : Nat) : Nat :=
  let n_cycles := n_ints / 8
  popcnt_avx512_csa_intersect (m512 b1) (m512 b2) n_cycles +
    ∑ i in Finset.Ico (n_cycles*8) n_ints, FIC_POPCOUNT (b1 i &&& b2 i)

/-! ## Drivers -/

/-- Model of `ftype`: signature of a dense per-pair kernel. -/
def ftype := (Nat → Nat) → (Nat → Nat) → Nat → Nat

/-- Model of `fltype`: signature of the sparse positional kernel. -/
def fltype := (Nat → Nat) → (Nat → Nat) → (Nat → Nat) → (Nat → Nat) → Nat → Nat → Nat

/-- Model of `&vals[i*n_ints]`: the pointer to vector `i` of the bundle. -/
def vecAt (vals : Nat → Nat) (n_ints i : Nat) : Nat → Nat :=
  fun k => vals (i * n_ints + k)

/-- Model of `&alt_positions[alt_offsets[i]]`: the position list of vector `i`. -/
def posAt (alt_positions alt_offsets : Nat → Nat) (i : Nat) : Nat → Nat :=
  fun k => alt_positions (alt_offsets i + k)

/-- Model of `c_fwrapper(n_vectors, vals, n_ints, f)`: the naive double loop
(`offset = i*n_ints`, `inner_offset = j*n_ints` for `j = i+1, ...`). -/
def c_fwrapper (n_vectors : Nat) (vals : Nat → Nat) (n_ints : Nat) (f : ftype) : Nat :=
  ∑ i in Finset.range n_vectors, ∑ j in Finset.Ico (i+1) n_vectors,
    f (vecAt vals n_ints i) (vecAt vals n_ints j) n_ints

/-! The two blocked drivers (`c_fwrapper_blocked`, `c_flwrapper_blocked`)
have the same loop skeleton; only the expression each pair `(x, y)` of
vector indices contributes differs (a plain kernel call vs. the
cutoff-dispatched call).  The skeleton is embedded once, over the
per-pair contribution `g x y`; all address computations of the source
(`left = i*n_ints` with per-iteration `+= n_ints` increments) reduce to
`vecAt` at the indicated indices. -/

/-- The `square component` / `residual` loops of one strip: starting
from `j = curi + block_size`, full `B × B` tiles while `j + B ≤ n`
(pairs `(curi+ii, j+jj)`), then the right residual for the remaining
`j < n` (pairs `(curi+jj, j)`). -/
def sqLoopF (n B : Nat) (g : Nat → Nat → Nat) (curi : Nat) : Nat → Nat → Nat
  | 0, j => ∑ j' in Finset.Ico j n, ∑ jj in Finset.range B, g (curi + jj) j'
  | fuel+1, j =>
      if j + B ≤ n then
        (∑ ii in Finset.range B, ∑ jj in Finset.range B, g (curi + ii) (j + jj))
          + sqLoopF n B g curi fuel (j + B)
      else
        ∑ j' in Finset.Ico j n, ∑ jj in Finset.range B, g (curi + jj) j'

/-- The outer strip loop: while `i + B ≤ n`, a strip contributes its
diagonal tile (pairs `(i+j, i+jj)`, `j < jj < B`) plus the square and
residual components; after the last full strip, the `residual tail`
double loop handles the remaining pairs directly. -/
def stripLoopF (n B : Nat) (g : Nat → Nat → Nat) : Nat → Nat → Nat
  | 0, i => ∑ x in Finset.Ico i n, ∑ y in Finset.Ico (x+1) n, g x y
  | fuel+1, i =>
      if i + B ≤ n then
        (∑ j in Finset.range B, ∑ jj in Finset.Ico (j+1) B, g (i + j) (i + jj))
          + sqLoopF n B g i (n+1) (i + B)
          + stripLoopF n B g fuel (i + B)
      else
        ∑ x in Finset.Ico i n, ∑ y in Finset.Ico (x+1) n, g x y

/-- The common blocked all-pairs skeleton, with the source's remapping
`block_size = (block_size == 0 ? 3 : block_size)`. -/
def blockedPairs (n_vectors block_size : Nat) (g : Nat → Nat → Nat) : Nat :=
  stripLoopF n_vectors (if block_size = 0 then 3 else block_size) g (n_vectors+1) 0

/-- Model of `c_fwrapper_blocked(n_vectors, vals, n_ints, f, block_size)`. -/
def c_fwrapper_blocked (n_vectors : Nat) (vals : Nat → Nat) (n_ints : Nat)
    (f : ftype) (block_size : Nat) : Nat :=
  blockedPairs n_vectors block_size
    (fun x y => f (vecAt vals n_ints x) (vecAt vals n_ints y) n_ints)

/-- Model of `c_flwrapper_blocked(n_vectors, vals, n_ints, n_alts, alt_positions,
alt_offsets, f, fl, cutoff, block_size)`: same tiling; each pair `(x, y)`
dispatches to `fl` when `n_alts[x] < cutoff || n_alts[y] < cutoff`, else
to `f`. -/
def c_flwrapper_blocked (n_vectors : Nat) (vals : Nat → Nat) (n_ints : Nat)
    (n_alts alt_positions alt_offsets : Nat → Nat)
    (f : ftype) (fl : fltype) (cutoff block_size : Nat) : Nat :=
  blockedPairs n_vectors block_size
    (fun x y =>
      if n_alts x < cutoff ∨ n_alts y < cutoff then
        fl (vecAt vals n_ints x) (vecAt vals n_ints y)
          (posAt alt_positions alt_offsets x) (posAt alt_positions alt_offsets y)
          (n_alts x) (n_alts y)
      else
        f (vecAt vals n_ints x) (vecAt vals n_ints y) n_ints)

/-! ## Dispatch facade -/

def bit_POPCNT : Nat := 1 <<< 23
def bit_SSE41 : Nat := 1 <<< 19
def bit_SSE42 : Nat := 1 <<< 20
def bit_AVX2 : Nat := 1 <<< 5
def bit_AVX512BW : Nat := 1 <<< 30

/-- Model of `FIC_DEFAULT_BLOCK / (n_bitmaps_vector * 8)`, the adaptive block
size.  `FIC_DEFAULT_BLOCK` is the literal `256e3`; for positive word
counts the truncated double division coincides with natural division.
(For `n_bitmaps_vector = 0` the C conversion of the infinite quotient is
not a defined value; the drivers' result is independent of the block
size, so any modelling works — here `Nat` division yields 0.) -/
def ficBlock (n_bitmaps_vector : Nat) : Nat := 256000 / (n_bitmaps_vector * 8)

/-- Model of `intersect(data, n_vectors, n_bitmaps_vector)`, with the cached CPUID
bitmask made an explicit first argument. -/
def intersect (cpuid : Nat) (data : Nat → Nat) (n_vectors n_bitmaps_vector : Nat) : Nat :=
  if cpuid &&& bit_AVX512BW ≠ 0 ∧ 128 ≤ n_bitmaps_vector then
    c_fwrapper_blocked n_vectors data n_bitmaps_vector intersect_bitmaps_avx512_csa
      (ficBlock n_bitmaps_vector)
  else if cpuid &&& bit_AVX2 ≠ 0 ∧ 64 ≤ n_bitmaps_vector then
    c_fwrapper_blocked n_vectors data n_bitmaps_vector intersect_bitmaps_avx2
      (ficBlock n_bitmaps_vector)
  else if cpuid &&& bit_SSE41 ≠ 0 ∧ 32 ≤ n_bitmaps_vector then
    c_fwrapper_blocked n_vectors data n_bitmaps_vector intersect_bitmaps_sse4
      (ficBlock n_bitmaps_vector)
  else
    c_fwrapper_blocked n_vectors data n_bitmaps_vector intersect_bitmaps_scalar
      (ficBlock n_bitmaps_vector)

def FIC_SSE_ALIGNMENT : Nat := 16
def FIC_AVX2_ALIGNMENT : Nat := 32
def FIC_AVX512_ALIGNMENT : Nat := 64

/-- Model of `get_alignment()`, with the cached CPUID bitmask explicit. -/
def get_alignment (cpuid : Nat) : Nat :=
  let alignment := 0
  let alignment := if cpuid &&& bit_AVX512BW ≠ 0 then FIC_AVX512_ALIGNMENT else alignment
  let alignment := if cpuid &&& bit_AVX2 ≠ 0 ∧ alignment = 0 then FIC_AVX2_ALIGNMENT else alignment
  let alignment := if cpuid &&& bit_SSE41 ≠ 0 ∧ alignment = 0 then FIC_SSE_ALIGNMENT else alignment
  if alignment = 0 then 8 else alignment

/-- Model of `intersect_list(data, n_vectors, n_bitmaps_vector, n_alts, alt_pos,
alt_offsets, cutoff)`, with the cached CPUID bitmask explicit.  Note
that every call of `c_flwrapper_blocked` in the source passes the
literal `50` as the cutoff; the `cutoff` parameter is never used. -/
def intersect_list (cpuid : Nat) (data : Nat → Nat) (n_vectors n_bitmaps_vector : Nat)
    (n_alts alt_pos alt_offsets : Nat → Nat) (cutoff : Nat) : Nat :=
  if cpuid &&& bit_AVX512BW ≠ 0 ∧ 128 ≤ n_bitmaps_vector then
    c_flwrapper_blocked n_vectors data n_bitmaps_vector n_alts alt_pos alt_offsets
      intersect_bitmaps_avx512_csa intersect_bitmaps_scalar_list 50
      (ficBlock n_bitmaps_vector)
  else if cpuid &&& bit_AVX2 ≠ 0 ∧ 64 ≤ n_bitmaps_vector then
    c_flwrapper_blocked n_vectors data n_bitmaps_vector n_alts alt_pos alt_offsets
      intersect_bitmaps_avx2 intersect_bitmaps_scalar_list 50
      (ficBlock n_bitmaps_vector)
  else if cpuid &&& bit_SSE41 ≠ 0 ∧ 32 ≤ n_bitmaps_vector then
    c_flwrapper_blocked n_vectors data n_bitmaps_vector n_alts alt_pos alt_offsets
      intersect_bitmaps_sse4 intersect_bitmaps_scalar_list 50
      (ficBlock n_bitmaps_vector)
  else
    c_flwrapper_blocked n_vectors data n_bitmaps_vector n_alts alt_pos alt_offsets
      intersect_bitmaps_scalar intersect_bitmaps_scalar_list 50
      (ficBlock n_bitmaps_vector)

/-- The dense kernel `intersect_list` selects for a given CPUID bitmask
and word count (mirrors the dispatch chain of `intersect_list`). -/
def denseSelect (cpuid n_bitmaps_vector : Nat) : ftype :=
  if cpuid &&& bit_AVX512BW ≠ 0 ∧ 128 ≤ n_bitmaps_vector then intersect_bitmaps_avx512_csa
  else if cpuid &&& bit_AVX2 ≠ 0 ∧ 64 ≤ n_bitmaps_vector then intersect_bitmaps_avx2
  else if cpuid &&& bit_SSE41 ≠ 0 ∧ 32 ≤ n_bitmaps_vector then intersect_bitmaps_sse4
  else intersect_bitmaps_scalar

/-! ## Correctness of the blocked all-pairs skeleton -/

/-- Closed form of the square/residual loops: starting at `j`, every
later vector `j' ∈ [j, n)` is paired with each of the `B` strip vectors
`curi + jj`. -/
theorem sqLoopF_eq (n B : Nat) (g : Nat → Nat → Nat) (curi : Nat) :
    ∀ fuel j, sqLoopF n B g curi fuel j
      = ∑ j' in Finset.Ico j n, ∑ jj in Finset.range B, g (curi + jj) j' := by
  intro fuel
  induction fuel with
  | zero => intro j; rfl
  | succ fuel ih =>
    intro j
    simp only [sqLoopF]
    by_cases h : j + B ≤ n
    · rw [if_pos h, ih,
        ← Finset.sum_Ico_consecutive
          (fun j' => ∑ jj in Finset.range B, g (curi + jj) j') (Nat.le_add_right j B) h]
      congr 1
      rw [Finset.sum_Ico_eq_sum_range]
      simp only [Nat.add_sub_cancel_left]
      exact Finset.sum_comm
    · rw [if_neg h]

/-- Closed form of the strip loop: from strip base `i` on, every
unordered pair `i ≤ x < y < n` is visited exactly once. -/
theorem stripLoopF_eq (n B : Nat) (g : Nat → Nat → Nat) :
    ∀ fuel i, stripLoopF n B g fuel i
      = ∑ x in Finset.Ico i n, ∑ y in Finset.Ico (x+1) n, g x y := by
  intro fuel
  induction fuel with
  | zero => intro i; rfl
  | succ fuel ih =>
    intro i
    simp only [stripLoopF]
    by_cases h : i + B ≤ n
    · rw [if_pos h, sqLoopF_eq, ih,
        ← Finset.sum_Ico_consecutive
          (fun x => ∑ y in Finset.Ico (x+1) n, g x y) (Nat.le_add_right i B) h]
      have hsplit : ∀ x ∈ Finset.Ico i (i+B),
          (∑ y in Finset.Ico (x+1) n, g x y)
            = (∑ y in Finset.Ico (x+1) (i+B), g x y) + ∑ y in Finset.Ico (i+B) n, g x y := by
        intro x hx
        rw [Finset.mem_Ico] at hx
        exact (Finset.sum_Ico_consecutive _ (by omega) h).symm
      rw [Finset.sum_congr rfl hsplit, Finset.sum_add_distrib]
      have hdiag : (∑ x in Finset.Ico i (i+B), ∑ y in Finset.Ico (x+1) (i+B), g x y)
          = ∑ j in Finset.range B, ∑ jj in Finset.Ico (j+1) B, g (i + j) (i + jj) := by
        rw [Finset.sum_Ico_eq_sum_range]
        simp only [Nat.add_sub_cancel_left]
        refine Finset.sum_congr rfl ?_
        intro j _
        rw [Finset.sum_Ico_eq_sum_range, Finset.sum_Ico_eq_sum_range]
        have hlen : i + B - (i + j + 1) = B - (j + 1) := by omega
        rw [hlen]
        refine Finset.sum_congr rfl ?_
        intro t _
        congr 1
        omega
      have hsq : (∑ x in Finset.Ico i (i+B), ∑ y in Finset.Ico (i+B) n, g x y)
          = ∑ j' in Finset.Ico (i+B) n, ∑ jj in Finset.range B, g (i + jj) j' := by
        rw [Finset.sum_comm]
        refine Finset.sum_congr rfl ?_
        intro y _
        rw [Finset.sum_Ico_eq_sum_range]
        simp only [Nat.add_sub_cancel_left]
      rw [← hdiag, ← hsq]
    · rw [if_neg h]

/-- The blocked skeleton visits exactly the unordered pairs
`0 ≤ x < y < n`, once each, for every block size. -/
theorem blockedPairs_eq (n B : Nat) (g : Nat → Nat → Nat) :
    blockedPairs n B g = ∑ x in Finset.range n, ∑ y in Finset.Ico (x+1) n, g x y := by
  rw [blockedPairs, stripLoopF_eq, Finset.range_eq_Ico]

/-! ## Scalar kernel closed form -/

theorem scalarLoop_eq (b1 b2 : Nat → Nat) (n : Nat) :
    ∀ fuel i count, scalarLoop fuel b1 b2 n i count
      = count + ∑ k in Finset.Ico i n, FIC_POPCOUNT (b1 k &&& b2 k) := by
  intro fuel
  induction fuel with
  | zero => intro i count; rfl
  | succ fuel ih =>
    intro i count
    simp only [scalarLoop]
    by_cases h : i + 4 < n
    · rw [if_pos h, ih]
      have hsplit : (∑ k in Finset.Ico i n, FIC_POPCOUNT (b1 k &&& b2 k))
          = (∑ k in Finset.Ico i (i+4), FIC_POPCOUNT (b1 k &&& b2 k))
            + ∑ k in Finset.Ico (i+4) n, FIC_POPCOUNT (b1 k &&& b2 k) :=
        (Finset.sum_Ico_consecutive _ (by omega) (by omega)).symm
      have hreidx : (∑ k in Finset.Ico i (i+4), FIC_POPCOUNT (b1 k &&& b2 k))
          = ∑ k in Finset.range 4, FIC_POPCOUNT (b1 (i + k) &&& b2 (i + k)) := by
        rw [Finset.sum_Ico_eq_sum_range]
        simp only [Nat.add_sub_cancel_left]
      rw [hsplit, hreidx, Finset.sum_range_succ, Finset.sum_range_succ,
        Finset.sum_range_succ, Finset.sum_range_one]
      ring
    · rw [if_neg h]

/-- Model of `intersect_bitmaps_scalar` sums the AND-popcounts of all word pairs. -/
theorem intersect_bitmaps_scalar_eq (b1 b2 : Nat → Nat) (n : Nat) :
    intersect_bitmaps_scalar b1 b2 n
      = ∑ k in Finset.range n, FIC_POPCOUNT (b1 k &&& b2 k) := by
  rw [intersect_bitmaps_scalar, scalarLoop_eq, Finset.range_eq_Ico, Nat.zero_add]

/-- Claim C5: for every pair of word arrays and every word count
`n_ints` (including 0 and counts that are not multiples of 4), the
scalar kernel returns exactly the sum over `i < n_ints` of
`popcount(b1[i] & b2[i])`. -/
theorem c5_scalar_kernel_sum (b1 b2 : Nat → Nat) (n_ints : Nat) :
    intersect_bitmaps_scalar b1 b2 n_ints
      = ∑ i in Finset.range n_ints, FIC_POPCOUNT (b1 i &&& b2 i) :=
  intersect_bitmaps_scalar_eq b1 b2 n_ints

/-- Claim C4: for every kernel, vector count, word count and block size
(0 included, remapped internally), the blocked driver returns the sum of
`f(V_i, V_j)` over exactly the unordered pairs `i < j`, and hence equals
the naive double-loop driver `c_fwrapper`. -/
theorem c4_blocked_equals_naive (f : ftype) (n_vectors n_ints block_size : Nat)
    (vals : Nat → Nat) :
    c_fwrapper_blocked n_vectors vals n_ints f block_size
      = (∑ i in Finset.range n_vectors, ∑ j in Finset.Ico (i+1) n_vectors,
          f (vecAt vals n_ints i) (vecAt vals n_ints j) n_ints)
    ∧ c_fwrapper_blocked n_vectors vals n_ints f block_size
        = c_fwrapper n_vectors vals n_ints f := by
  constructor
  · rw [c_fwrapper_blocked, blockedPairs_eq]
  · rw [c_fwrapper_blocked, blockedPairs_eq, c_fwrapper]

/-- Claim C8: the public entry point `intersect` returns 0 when
`words_per_vector == 0` and `n_vectors > 1`. -/
theorem c8_zero_words_returns_zero (cpuid : Nat) (data : Nat → Nat) (n_vectors : Nat)
    (h : 1 < n_vectors) :
    intersect cpuid data n_vectors 0 = 0 := by
  rw [intersect, if_neg (by simp), if_neg (by simp), if_neg (by simp),
    c_fwrapper_blocked, blockedPairs_eq]
  refine Finset.sum_eq_zero ?_
  intro i _
  refine Finset.sum_eq_zero ?_
  intro j _
  rw [intersect_bitmaps_scalar_eq]
  simp

theorem c8_zero_words_returns_zero_witness :
    1 < 2 ∧ intersect 0 (fun _ => 5) 2 0 = 0 :=
  ⟨by decide, c8_zero_words_returns_zero 0 (fun _ => 5) 2 (by decide)⟩

/-- Claim C9: `get_alignment` always returns one of 8, 16, 32, 64, each
a power of two, whatever CPU-feature bits are set. -/
theorem c9_alignment_values (cpuid : Nat) :
    (get_alignment cpuid = 8 ∨ get_alignment cpuid = 16 ∨ get_alignment cpuid = 32 ∨
      get_alignment cpuid = 64) ∧ ∃ k, get_alignment cpuid = 2^k := by
  have hmem : get_alignment cpuid = 8 ∨ get_alignment cpuid = 16 ∨
      get_alignment cpuid = 32 ∨ get_alignment cpuid = 64 := by
    unfold get_alignment
    by_cases h1 : cpuid &&& bit_AVX512BW ≠ 0 <;>
      by_cases h2 : cpuid &&& bit_AVX2 ≠ 0 <;>
        by_cases h3 : cpuid &&& bit_SSE41 ≠ 0 <;>
          simp [h1, h2, h3, FIC_AVX512_ALIGNMENT, FIC_AVX2_ALIGNMENT, FIC_SSE_ALIGNMENT]
  refine ⟨hmem, ?_⟩
  rcases hmem with h | h | h | h
  · exact ⟨3, by rw [h]; norm_num⟩
  · exact ⟨4, by rw [h]; norm_num⟩
  · exact ⟨5, by rw [h]; norm_num⟩
  · exact ⟨6, by rw [h]; norm_num⟩

/-- Claim C10: `intersect_list` never reads the caller-supplied cutoff
(every dispatch path passes the literal 50 to the blocked driver), so
its result is the same for any two cutoff values. -/
theorem c10_cutoff_independent (cpuid : Nat) (data : Nat → Nat)
    (n_vectors n_bitmaps_vector : Nat) (n_alts alt_pos alt_offsets : Nat → Nat)
    (c1 c2 : Nat) :
    intersect_list cpuid data n_vectors n_bitmaps_vector n_alts alt_pos alt_offsets c1
      = intersect_list cpuid data n_vectors n_bitmaps_vector n_alts alt_pos alt_offsets c2 :=
  rfl

/-! ## Sparse-aware dispatch (claims C3, C10) -/

/-- Corrected claim C3: on every dispatch path, `intersect_list` treats
pair `(i, j)` as sparse iff `n_alts[i] < 50 || n_alts[j] < 50` — the
hard-coded 50, not the caller-supplied cutoff, which is ignored. -/
theorem c3_dispatch_hardcoded_50 (cpuid : Nat) (data : Nat → Nat)
    (n_vectors n_bitmaps_vector : Nat) (n_alts alt_pos alt_offsets : Nat → Nat)
    (cutoff : Nat) :
    intersect_list cpuid data n_vectors n_bitmaps_vector n_alts alt_pos alt_offsets cutoff
      = ∑ i in Finset.range n_vectors, ∑ j in Finset.Ico (i+1) n_vectors,
          (if n_alts i < 50 ∨ n_alts j < 50 then
            intersect_bitmaps_scalar_list
              (vecAt data n_bitmaps_vector i) (vecAt data n_bitmaps_vector j)
              (posAt alt_pos alt_offsets i) (posAt alt_pos alt_offsets j)
              (n_alts i) (n_alts j)
          else
            denseSelect cpuid n_bitmaps_vector
              (vecAt data n_bitmaps_vector i) (vecAt data n_bitmaps_vector j)
              n_bitmaps_vector) := by
  have key : ∀ fker : ftype,
      c_flwrapper_blocked n_vectors data n_bitmaps_vector n_alts alt_pos alt_offsets
          fker intersect_bitmaps_scalar_list 50 (ficBlock n_bitmaps_vector)
        = ∑ i in Finset.range n_vectors, ∑ j in Finset.Ico (i+1) n_vectors,
            (if n_alts i < 50 ∨ n_alts j < 50 then
              intersect_bitmaps_scalar_list
                (vecAt data n_bitmaps_vector i) (vecAt data n_bitmaps_vector j)
                (posAt alt_pos alt_offsets i) (posAt alt_pos alt_offsets j)
                (n_alts i) (n_alts j)
            else
              fker (vecAt data n_bitmaps_vector i) (vecAt data n_bitmaps_vector j)
                n_bitmaps_vector) := by
    intro fker
    rw [c_flwrapper_blocked, blockedPairs_eq]
  unfold intersect_list
  by_cases h1 : cpuid &&& bit_AVX512BW ≠ 0 ∧ 128 ≤ n_bitmaps_vector
  · rw [if_pos h1, key]
    refine Finset.sum_congr rfl fun i _ => Finset.sum_congr rfl fun j _ => ?_
    unfold denseSelect
    rw [if_pos h1]
  · rw [if_neg h1]
    by_cases h2 : cpuid &&& bit_AVX2 ≠ 0 ∧ 64 ≤ n_bitmaps_vector
    · rw [if_pos h2, key]
      refine Finset.sum_congr rfl fun i _ => Finset.sum_congr rfl fun j _ => ?_
      unfold denseSelect
      rw [if_neg h1, if_pos h2]
    · rw [if_neg h2]
      by_cases h3 : cpuid &&& bit_SSE41 ≠ 0 ∧ 32 ≤ n_bitmaps_vector
      · rw [if_pos h3, key]
        refine Finset.sum_congr rfl fun i _ => Finset.sum_congr rfl fun j _ => ?_
        unfold denseSelect
        rw [if_neg h1, if_neg h2, if_pos h3]
      · rw [if_neg h3, key]
        refine Finset.sum_congr rfl fun i _ => Finset.sum_congr rfl fun j _ => ?_
        unfold denseSelect
        rw [if_neg h1, if_neg h2, if_neg h3]

/-- A bundle of two one-word vectors that share their single set bit,
with a (deliberately understating) side table claiming zero set bits. -/
def exVals : Nat → Nat := fun k => if k = 0 then 1 else if k = 1 then 1 else 0

def exNa : Nat → Nat := fun _ => 0

def exAp : Nat → Nat := fun _ => 0

def exAo : Nat → Nat := fun _ => 0

/-- Claim C3 as stated (dispatch decided by the caller-supplied cutoff)
is false: with cutoff 0 no pair may be treated as sparse, yet
`intersect_list` still routes the pair through the sparse kernel
(which here returns 0 instead of the dense kernel's 1). -/
theorem c3_cutoff_counterexample :
    intersect_list 0 exVals 2 1 exNa exAp exAo 0
      ≠ ∑ i in Finset.range 2, ∑ j in Finset.Ico (i+1) 2,
          (if exNa i < 0 ∨ exNa j < 0 then
            intersect_bitmaps_scalar_list (vecAt exVals 1 i) (vecAt exVals 1 j)
              (posAt exAp exAo i) (posAt exAp exAo j) (exNa i) (exNa j)
          else
            denseSelect 0 1 (vecAt exVals 1 i) (vecAt exVals 1 j) 1) := by
  decide

/-! ## The SSE4 tail bug (claims C1, C7) -/

/-- Four all-ones 64-bit words. -/
def allOnesWords : Nat → Nat := fun _ => 2^64 - 1

/-- Four words of value 0xF. -/
def nibbleWords : Nat → Nat := fun _ => 15

/-- Claim C1 failing input: on `n_ints = 4` (two 128-bit blocks, both in
the residual tail since `2 % 16 ≠ 0`), the SSE4 kernel's tail overwrites
instead of accumulating (`cnt64 = ...` in the source), so it returns the
popcount of the last block only (128), while the scalar kernel returns
the true intersection count 256. -/
theorem c1_sse4_tail_divergence :
    intersect_bitmaps_sse4 allOnesWords allOnesWords 4 = 128 ∧
      intersect_bitmaps_scalar allOnesWords allOnesWords 4 = 256 := by
  decide

/-- Claim C7 failing input: the identity property
`kernel(A, A) = popcount(A)` fails for the SSE4 kernel because of the
same overwriting tail: for the aliased bitmap of four 0xF words it
returns 8 where `popcount(A) = 16` (the scalar kernel's value). -/
theorem c7_identity_divergence :
    intersect_bitmaps_sse4 nibbleWords nibbleWords 4 = 8 ∧
      intersect_bitmaps_scalar nibbleWords nibbleWords 4 = 16 := by
  decide

/-! ## Popcount and bit-probe lemmas (claim C2) -/

theorem toNat_testBit_zero (x : Nat) : (x.testBit 0).toNat = x % 2 := by
  rw [Nat.testBit_zero]
  rcases Nat.mod_two_eq_zero_or_one x with h | h <;> simp [h]

theorem popcntAux_eq_sum_testBit :
    ∀ fuel x, popcntAux fuel x = ∑ k in Finset.range fuel, (x.testBit k).toNat := by
  intro fuel
  induction fuel with
  | zero => intro x; simp [popcntAux]
  | succ fuel ih =>
    intro x
    simp only [popcntAux]
    rw [ih, Finset.sum_range_succ']
    simp only [Nat.testBit_add_one]
    rw [toNat_testBit_zero]
    omega

/-- Model of `FIC_POPCOUNT` counts exactly the bits at positions 0..63. -/
theorem FIC_POPCOUNT_eq_sum (x : Nat) :
    FIC_POPCOUNT x = ∑ k in Finset.range 64, (x.testBit k).toNat :=
  popcntAux_eq_sum_testBit 64 x

/-- The probe `x & (1 << k)` is nonzero exactly when bit `k` of `x` is set. -/
theorem and_shift_ne_zero_iff (x k : Nat) :
    (x &&& (1 <<< k) ≠ 0) ↔ x.testBit k = true := by
  rw [Nat.one_shiftLeft]
  have hE : x &&& 2^k = if x.testBit k then 2^k else 0 := by
    refine Nat.eq_of_testBit_eq fun i => ?_
    by_cases hik : k = i
    · subst hik
      by_cases h : x.testBit k <;>
        simp [h, Nat.testBit_and, Nat.testBit_two_pow]
    · by_cases h : x.testBit k <;>
        simp [h, Nat.testBit_and, Nat.testBit_two_pow, hik]
  rw [hE]
  by_cases h : x.testBit k <;> simp [h]

/-- The `MOD` macro composed with the hardware's 6-bit shift-count mask
yields `p mod 64`, the bit-in-word index. -/
theorem macroMOD_mod_64 (x : Nat) : macroMOD x % 64 = x % 64 := by
  rw [macroMOD]
  have h1 : x * 64 % 2^32 = 64 * (x % 2^26) := by
    rw [Nat.mul_comm x 64, show (2:Nat)^32 = 64 * 2^26 by norm_num, Nat.mul_mod_mul_left]
  rw [h1, Nat.shiftRight_eq_div_pow]
  have h2 : (64:Nat) * (x % 2^26) / 2^6 = x % 2^26 := by
    rw [show (2:Nat)^6 = 64 by norm_num]
    exact Nat.mul_div_cancel_left _ (by norm_num)
  rw [h2, Nat.mod_mod_of_dvd _ (by norm_num : (64:Nat) ∣ 2^26)]

theorem sum_range_eq_listSum (n : Nat) (f : Nat → Nat) :
    (∑ i in Finset.range n, f i) = ((List.range n).map f).sum := by
  induction n with
  | zero => simp
  | succ n ih => rw [Finset.sum_range_succ, List.range_succ]; simp [ih]

theorem listSum_filter_map (p : Nat → Bool) (g : Nat → Nat) :
    ∀ L : List Nat, ((L.filter p).map g).sum
      = (L.map (fun x => if p x then g x else 0)).sum := by
  intro L
  induction L with
  | nil => rfl
  | cons a L ih =>
    by_cases h : p a <;> simp [List.filter_cons, h, ih]

theorem sum_range_mul_split (W : Nat) (F : Nat → Nat) :
    (∑ p in Finset.range (64 * W), F p)
      = ∑ w in Finset.range W, ∑ k in Finset.range 64, F (64 * w + k) := by
  induction W with
  | zero => simp
  | succ W ih =>
    rw [Finset.sum_range_succ (fun w => ∑ k in Finset.range 64, F (64 * w + k)) W,
      ← ih, show 64 * (W + 1) = 64 * W + 64 by ring, Finset.sum_range_add]

/-- Probing the other bitmap at every set-bit position of one bitmap
counts the common set bits, word by word. -/
theorem probe_sum_eq (bA bB : Nat → Nat) (l : Nat → Nat) (nl W : Nat)
    (hl : (List.range nl).map l = setBitIndices bA W) :
    (∑ i in Finset.range nl,
        (if bB (l i >>> 6) &&& (1 <<< (macroMOD (l i) % 64)) ≠ 0 then 1 else 0))
      = ∑ w in Finset.range W, FIC_POPCOUNT (bA w &&& bB w) := by
  have hg : ∀ pPos : Nat,
      (if bB (pPos >>> 6) &&& (1 <<< (macroMOD pPos % 64)) ≠ 0 then 1 else 0)
        = ((bB (pPos >>> 6)).testBit (pPos % 64)).toNat := by
    intro pPos
    rw [macroMOD_mod_64]
    by_cases h : (bB (pPos >>> 6)).testBit (pPos % 64) <;>
      simp [and_shift_ne_zero_iff, h]
  have step1 : (∑ i in Finset.range nl,
        (if bB (l i >>> 6) &&& (1 <<< (macroMOD (l i) % 64)) ≠ 0 then 1 else 0))
      = ((setBitIndices bA W).map
          (fun pPos => ((bB (pPos >>> 6)).testBit (pPos % 64)).toNat)).sum := by
    rw [← hl, List.map_map, ← sum_range_eq_listSum]
    exact Finset.sum_congr rfl fun i _ => hg (l i)
  rw [step1, setBitIndices, listSum_filter_map, ← sum_range_eq_listSum,
    sum_range_mul_split]
  refine Finset.sum_congr rfl fun w _ => ?_
  rw [FIC_POPCOUNT_eq_sum]
  refine Finset.sum_congr rfl fun k hk => ?_
  rw [Finset.mem_range] at hk
  have hdiv : (64 * w + k) >>> 6 = w := by
    rw [Nat.shiftRight_eq_div_pow, show (2:Nat)^6 = 64 by norm_num,
      Nat.mul_add_div (by norm_num)]
    omega
  have hmod : (64 * w + k) % 64 = k := by
    rw [Nat.mul_add_mod]
    exact Nat.mod_eq_of_lt hk
  rw [hdiv, hmod, Nat.testBit_and]
  by_cases hA : (bA w).testBit k <;> by_cases hB : (bB w).testBit k <;>
    simp [hA, hB]

/-- Claim C2: when the position lists are exactly the ascending set-bit
indices of the two bitmaps, the sparse positional kernel returns
`|A ∧ B|`, the dense scalar kernel's result. -/
theorem c2_sparse_equals_dense (b1 b2 l1 l2 : Nat → Nat) (n1 n2 W : Nat)
    (h1 : (List.range n1).map l1 = setBitIndices b1 W)
    (h2 : (List.range n2).map l2 = setBitIndices b2 W) :
    intersect_bitmaps_scalar_list b1 b2 l1 l2 n1 n2
      = (∑ w in Finset.range W, FIC_POPCOUNT (b1 w &&& b2 w))
    ∧ intersect_bitmaps_scalar_list b1 b2 l1 l2 n1 n2
      = intersect_bitmaps_scalar b1 b2 W := by
  have hmain : intersect_bitmaps_scalar_list b1 b2 l1 l2 n1 n2
      = ∑ w in Finset.range W, FIC_POPCOUNT (b1 w &&& b2 w) := by
    rw [intersect_bitmaps_scalar_list]
    by_cases h : n1 < n2
    · rw [if_pos h]
      exact probe_sum_eq b1 b2 l1 n1 W h1
    · rw [if_neg h, probe_sum_eq b2 b1 l2 n2 W h2]
      exact Finset.sum_congr rfl fun w _ => by rw [Nat.and_comm]
  exact ⟨hmain, hmain.trans (intersect_bitmaps_scalar_eq b1 b2 W).symm⟩

def wb1 : Nat → Nat := fun _ => 5

def wb2 : Nat → Nat := fun _ => 6

def wl1 : Nat → Nat := fun i => if i = 0 then 0 else 2

def wl2 : Nat → Nat := fun i => if i = 0 then 1 else 2

theorem c2_sparse_equals_dense_witness :
    ((List.range 2).map wl1 = setBitIndices wb1 1
        ∧ (List.range 2).map wl2 = setBitIndices wb2 1)
      ∧ (intersect_bitmaps_scalar_list wb1 wb2 wl1 wl2 2 2
          = (∑ w in Finset.range 1, FIC_POPCOUNT (wb1 w &&& wb2 w))
        ∧ intersect_bitmaps_scalar_list wb1 wb2 wl1 wl2 2 2
          = intersect_bitmaps_scalar wb1 wb2 1) :=
  ⟨⟨by decide, by decide⟩,
    c2_sparse_equals_dense wb1 wb2 wl1 wl2 2 2 1 (by decide) (by decide)⟩

/-! ## CSA truth functions (claim C6) -/

theorem mm512_ternarylogic_testBit (imm : Nat) :
    ∀ w a b c k, (mm512_ternarylogic w a b c imm).testBit k
      = (decide (k < w) && imm.testBit
          (4 * (a.testBit k).toNat + 2 * (b.testBit k).toNat + (c.testBit k).toNat)) := by
  intro w
  induction w with
  | zero => intro a b c k; simp [mm512_ternarylogic]
  | succ w ih =>
    intro a b c k
    cases k with
    | zero =>
      simp only [mm512_ternarylogic]
      rw [Nat.testBit_zero, Nat.add_mul_mod_self_left,
        Nat.mod_mod_of_dvd _ (dvd_refl 2)]
      have hidx : 4 * (a.testBit 0).toNat + 2 * (b.testBit 0).toNat + (c.testBit 0).toNat
          = 4 * (a % 2) + 2 * (b % 2) + c % 2 := by
        rw [toNat_testBit_zero, toNat_testBit_zero, toNat_testBit_zero]
      rw [hidx, Nat.testBit_to_div_mod, ← Nat.shiftRight_eq_div_pow]
      simp
    | succ k =>
      simp only [mm512_ternarylogic]
      rw [Nat.testBit_add_one]
      have hdiv : ((imm >>> (4 * (a % 2) + 2 * (b % 2) + c % 2)) % 2
          + 2 * mm512_ternarylogic w (a / 2) (b / 2) (c / 2) imm) / 2
            = mm512_ternarylogic w (a / 2) (b / 2) (c / 2) imm := by
        rw [Nat.add_mul_div_left _ _ (by norm_num : (0:Nat) < 2),
          Nat.div_eq_of_lt (Nat.mod_lt _ (by norm_num))]
        omega
      rw [hdiv, ih, Nat.testBit_div_two, Nat.testBit_div_two, Nat.testBit_div_two]
      congr 1
      simp [Nat.succ_lt_succ_iff]

/-- Every bit of a value below `2^512` at position 512 or above is clear. -/
theorem testBit_high_false {x k : Nat} (hx : x < 2^512) (hk : ¬ k < 512) :
    x.testBit k = false :=
  Nat.testBit_lt_two_pow
    (lt_of_lt_of_le hx (Nat.pow_le_pow_right (by norm_num) (by omega)))

/-- The 0x96 ternary-logic operation on operands `(c, b, a)` is the
three-way XOR. -/
theorem ternarylogic_96 (a b c : Nat) (ha : a < 2^512) (hb : b < 2^512)
    (hc : c < 2^512) :
    mm512_ternarylogic 512 c b a 0x96 = a ^^^ b ^^^ c := by
  refine Nat.eq_of_testBit_eq fun k => ?_
  rw [mm512_ternarylogic_testBit, Nat.testBit_xor, Nat.testBit_xor]
  by_cases hk : k < 512
  · simp only [hk]
    cases hA : a.testBit k <;> cases hB : b.testBit k <;> cases hC : c.testBit k <;>
      simp [hA, hB, hC] <;> decide
  · rw [testBit_high_false ha hk, testBit_high_false hb hk, testBit_high_false hc hk]
    simp [hk]

/-- The 0xE8 ternary-logic operation on operands `(c, b, a)` is the
majority function `(a & b) | ((a ^ b) & c)`. -/
theorem ternarylogic_e8 (a b c : Nat) (ha : a < 2^512) (hb : b < 2^512)
    (hc : c < 2^512) :
    mm512_ternarylogic 512 c b a 0xe8 = (a &&& b) ||| ((a ^^^ b) &&& c) := by
  refine Nat.eq_of_testBit_eq fun k => ?_
  rw [mm512_ternarylogic_testBit, Nat.testBit_or, Nat.testBit_and,
    Nat.testBit_and, Nat.testBit_xor]
  by_cases hk : k < 512
  · simp only [hk]
    cases hA : a.testBit k <;> cases hB : b.testBit k <;> cases hC : c.testBit k <;>
      simp [hA, hB, hC] <;> decide
  · rw [testBit_high_false ha hk, testBit_high_false hb hk, testBit_high_false hc hk]
    simp [hk]

/-- Claim C6: at every lane width, `CSA(a,b,c)` produces
`l = a ^ b ^ c` and `h = (a & b) | ((a ^ b) & c)`; in particular the
512-bit variant's two ternary-logic operations with truth tables 0x96
and 0xE8 on operands `(c, b, a)` compute exactly these functions. -/
theorem c6_csa_lane_functions (a b c : Nat) (ha : a < 2^512) (hb : b < 2^512)
    (hc : c < 2^512) :
    ((CSA128 a b c).2 = a ^^^ b ^^^ c
        ∧ (CSA128 a b c).1 = (a &&& b) ||| ((a ^^^ b) &&& c))
    ∧ ((CSA256 a b c).2 = a ^^^ b ^^^ c
        ∧ (CSA256 a b c).1 = (a &&& b) ||| ((a ^^^ b) &&& c))
    ∧ ((CSA512 a b c).2 = a ^^^ b ^^^ c
        ∧ (CSA512 a b c).1 = (a &&& b) ||| ((a ^^^ b) &&& c)) :=
  ⟨⟨rfl, rfl⟩, ⟨rfl, rfl⟩,
    ternarylogic_96 a b c ha hb hc, ternarylogic_e8 a b c ha hb hc⟩

set_option maxRecDepth 8192 in
theorem c6_csa_lane_functions_witness :
    ((3:Nat) < 2^512 ∧ (5:Nat) < 2^512 ∧ (9:Nat) < 2^512)
    ∧ (((CSA128 3 5 9).2 = 3 ^^^ 5 ^^^ 9
          ∧ (CSA128 3 5 9).1 = (3 &&& 5) ||| ((3 ^^^ 5) &&& 9))
      ∧ ((CSA256 3 5 9).2 = 3 ^^^ 5 ^^^ 9
          ∧ (CSA256 3 5 9).1 = (3 &&& 5) ||| ((3 ^^^ 5) &&& 9))
      ∧ ((CSA512 3 5 9).2 = 3 ^^^ 5 ^^^ 9
          ∧ (CSA512 3 5 9).1 = (3 &&& 5) ||| ((3 ^^^ 5) &&& 9))) :=
  ⟨⟨by decide, by decide, by decide⟩,
    c6_csa_lane_functions 3 5 9 (by decide) (by decide) (by decide)⟩
